import Mathlib

/-!
# Verification of the comparison evaluator and analyzer driver

Shallow embedding of `sql/expression/comparison.go` and
`sql/analyzer/analyzer.go` of the go-mysql-server core, together with the
collaborator surface (SQL types, value conversion, the regex engine, the
batch evaluator) modelled from the specification where the corresponding
Go files are not part of the excerpt.

Go conventions are rendered as follows: a Go `interface{}` result that may
be the untyped `nil` (SQL NULL) becomes `Option GoVal`; a `(T, error)`
return becomes `Except RunErr T`; mutation through a pointer receiver
becomes explicit state passing (the function returns the updated node);
a Go runtime panic (failed type assertion, nil dereference) is the
distinguished error `RunErr.panicAssert`.
-/

namespace GoMysql

/-- Modelled from the spec: the SQL type tags of the `sql` package
(§3 "SQL type"); the package itself is outside the excerpt.  Only the
constructors exercised by comparisons are carried. -/
inductive SQLType where
  | int64
  | uint64
  | float64
  | decimal
  | text
  | longText
  | blob
  | boolean
  deriving DecidableEq, Repr

/-- Modelled from the spec: raw (non-NULL) SQL values as they travel in a Go
`interface{}` (§3 "SQL value").  `f64` and `dec` are carried as exact
rationals: every numeric literal appearing in the claims is exactly
representable, and no rounding behaviour is at issue. -/
inductive GoVal where
  | i64 (i : Int)
  | u64 (n : Nat)
  | f64 (q : Rat)
  | dec (q : Rat)
  | str (s : String)
  | boolean (b : Bool)
  deriving DecidableEq, Repr

/-- Errors and panics observable from evaluation.  `nilOperand` embeds
`ErrNilOperand` of comparison.go, `invalidRegexp` embeds `ErrInvalidRegexp`,
`convErr` stands for the typed conversion errors of the `sql` package, and
`panicAssert` is a Go runtime panic (e.g. a failed type assertion). -/
inductive RunErr where
  | nilOperand
  | convErr
  | typeMismatch
  | invalidRegexp (msg : String)
  | indexOut
  | panicAssert
  deriving DecidableEq, Repr

/-- Modelled from the spec: `is_number` of the `sql` package (§3). -/
def IsNumber : SQLType → Bool
  | .int64 | .uint64 | .float64 | .decimal => true
  | _ => false

/-- Modelled from the spec: `is_decimal` of the `sql` package (§3). -/
def IsDecimal : SQLType → Bool
  | .decimal => true
  | _ => false

/-- Modelled from the spec: `is_float` of the `sql` package (§3). -/
def IsFloat : SQLType → Bool
  | .float64 => true
  | _ => false

/-- Modelled from the spec: `is_signed` of the `sql` package (§3). -/
def IsSigned : SQLType → Bool
  | .int64 => true
  | _ => false

/-- Modelled from the spec: `is_text` of the `sql` package (§3); textual
types are the character and blob types. -/
def IsText : SQLType → Bool
  | .text | .longText | .blob => true
  | _ => false

/-- The five conversion targets used by implicit coercion (§4.1), i.e. the
`ConvertToSigned`, `ConvertToUnsigned`, `ConvertToDouble`,
`ConvertToDecimal`, `ConvertToChar` constants referenced by comparison.go. -/
inductive ConvTarget where
  | toSigned
  | toUnsigned
  | toDouble
  | toDecimal
  | toChar
  deriving DecidableEq, Repr

/-- Render an integer the way Go formats it, for `ToChar`. -/
def intToChars (i : Int) : String := toString i

/-- Accumulate a run of decimal digits; any non-digit is a parse failure. -/
def digitsToNat : List Char → Nat → Option Nat
  | [], acc => some acc
  | c :: rest, acc =>
    if '0' ≤ c ∧ c ≤ '9' then
      digitsToNat rest (acc * 10 + (c.toNat - '0'.toNat))
    else none

/-- Parse a non-empty all-digit character list. -/
def parseNatChars (cs : List Char) : Option Nat :=
  match cs with
  | [] => none
  | _ => digitsToNat cs 0

/-- Parse an unsigned decimal string. -/
def strToNat (s : String) : Option Nat := parseNatChars s.data

/-- Parse a decimal string with an optional sign. -/
def strToInt (s : String) : Option Int :=
  match s.data with
  | '-' :: cs => (parseNatChars cs).map fun n => -(n : Int)
  | '+' :: cs => (parseNatChars cs).map fun n => (n : Int)
  | cs => (parseNatChars cs).map fun n => (n : Int)

/-- Parse a decimal string (optional sign, digits, optional fraction) into a
rational; any other shape is a conversion error. -/
def parseRat (s : String) : Option Rat :=
  let (neg, cs) : Bool × List Char :=
    match s.data with
    | '-' :: rest => (true, rest)
    | '+' :: rest => (false, rest)
    | cs => (false, cs)
  match cs.span (fun c => c ≠ '.') with
  | (ip, []) => (parseNatChars ip).map fun n => if neg then -(n : Rat) else (n : Rat)
  | (ip, _ :: fp) =>
    match parseNatChars ip, parseNatChars fp with
    | some i, some f =>
      let q : Rat := (i : Rat) + (f : Rat) / ((10 : Rat) ^ fp.length)
      some (if neg then -q else q)
    | _, _ => none

/-- Round a rational to the nearest integer, halves away from zero, the way
MySQL casts fractional values to integers. -/
def ratRound (q : Rat) : Int :=
  if q < 0 then -(⌊-q + 1/2⌋) else ⌊q + 1/2⌋

/-- Modelled from the spec: `convertValue` — coercion of a raw value to one
of the five implicit-conversion targets (§4.1); the implementing `sql`
package conversion code is outside the excerpt.  Overflow, unparsable
strings and sign errors raise typed conversion errors (§4.3 "Error
signals"). -/
def convertValue (v : GoVal) (t : ConvTarget) : Except RunErr GoVal :=
  match t with
  | .toSigned =>
    match v with
    | .i64 i => .ok (.i64 i)
    | .u64 n => if n < 2 ^ 63 then .ok (.i64 (n : Int)) else .error .convErr
    | .f64 q => .ok (.i64 (ratRound q))
    | .dec q => .ok (.i64 (ratRound q))
    | .str s => match strToInt s with
      | some i => .ok (.i64 i)
      | none => match parseRat s with
        | some q => .ok (.i64 (ratRound q))
        | none => .error .convErr
    | .boolean b => .ok (.i64 (if b then 1 else 0))
  | .toUnsigned =>
    match v with
    | .i64 i => if 0 ≤ i then .ok (.u64 i.toNat) else .error .convErr
    | .u64 n => .ok (.u64 n)
    | .f64 q => if 0 ≤ q then .ok (.u64 (ratRound q).toNat) else .error .convErr
    | .dec q => if 0 ≤ q then .ok (.u64 (ratRound q).toNat) else .error .convErr
    | .str s => match strToNat s with
      | some n => .ok (.u64 n)
      | none => .error .convErr
    | .boolean b => .ok (.u64 (if b then 1 else 0))
  | .toDouble =>
    match v with
    | .i64 i => .ok (.f64 (i : Rat))
    | .u64 n => .ok (.f64 (n : Rat))
    | .f64 q => .ok (.f64 q)
    | .dec q => .ok (.f64 q)
    | .str s => match parseRat s with
      | some q => .ok (.f64 q)
      | none => .error .convErr
    | .boolean b => .ok (.f64 (if b then 1 else 0))
  | .toDecimal =>
    match v with
    | .i64 i => .ok (.dec (i : Rat))
    | .u64 n => .ok (.dec (n : Rat))
    | .f64 q => .ok (.dec q)
    | .dec q => .ok (.dec q)
    | .str s => match parseRat s with
      | some q => .ok (.dec q)
      | none => .error .convErr
    | .boolean b => .ok (.dec (if b then 1 else 0))
  | .toChar =>
    match v with
    | .i64 i => .ok (.str (intToChars i))
    | .u64 n => .ok (.str (toString n))
    | .f64 q => .ok (.str (toString q))
    | .dec q => .ok (.str (toString q))
    | .str s => .ok (.str s)
    | .boolean b => .ok (.str (if b then "1" else "0"))

/-- Map an `Ordering` to the `-1 | 0 | +1` convention of `Type.Compare`. -/
def ordToInt : Ordering → Int
  | .lt => -1
  | .eq => 0
  | .gt => 1

/-- Modelled from the spec: `Type.Compare` — each SQL type's total order on
its own values, returning `-1 | 0 | +1` (§4.1); a value of the wrong shape
for the type is a typed error. -/
def typeCompare (t : SQLType) (a b : GoVal) : Except RunErr Int :=
  match t, a, b with
  | .int64, .i64 x, .i64 y => .ok (ordToInt (compare x y))
  | .uint64, .u64 x, .u64 y => .ok (ordToInt (compare x y))
  | .float64, .f64 x, .f64 y => .ok (ordToInt (compare x y))
  | .decimal, .dec x, .dec y => .ok (ordToInt (compare x y))
  | .text, .str x, .str y => .ok (ordToInt (compare x y))
  | .longText, .str x, .str y => .ok (ordToInt (compare x y))
  | .blob, .str x, .str y => .ok (ordToInt (compare x y))
  | .boolean, .boolean x, .boolean y => .ok (ordToInt (compare x y))
  | _, _, _ => .error .typeMismatch

/-- A row: an ordered sequence of values, each possibly NULL (§3 "Row"). -/
def Row := List (Option GoVal)

/-- The child expressions a comparison node can hold: a literal carrying a
possibly-NULL value and a static type, or a `GetField` column reference
(§3 "Expression tree"; the `Literal` and `GetField` implementations are
outside the excerpt and modelled from the spec). -/
inductive Expr where
  | literal (v : Option GoVal) (t : SQLType)
  | getField (idx : Nat) (t : SQLType)
  deriving DecidableEq, Repr

/-- Static type of a child expression (`Expression.Type`). -/
def Expr.type : Expr → SQLType
  | .literal _ t => t
  | .getField _ t => t

/-- Evaluate a child expression over a row (`Expression.Eval`).  A literal
yields its value; `GetField i` yields `row[i]`; out-of-range is a Go panic,
not a SQL error (§4.2). -/
def Expr.eval : Expr → Row → Except RunErr (Option GoVal)
  | .literal v _, _ => .ok v
  | .getField i _, row =>
    match (row : List (Option GoVal)).get? i with
    | some v => .ok v
    | none => .error .indexOut

/-- Whether an expression subtree contains a `GetField`; `sql.Inspect` in
`NewRegexp` walks the right operand looking for exactly this. -/
def Expr.hasGetField : Expr → Bool
  | .literal _ _ => false
  | .getField _ _ => true

/-- The embedded `comparison` struct of comparison.go: a `BinaryExpression`
(left and right children) plus the `compareType` field, which starts out
nil and is assigned by `castLeftAndRight`. -/
structure Comparison where
  left : Expr
  right : Expr
  compareType : Option SQLType
  deriving DecidableEq, Repr

/-- `newComparison`: children plus a nil `compareType`. -/
def newComparison (left right : Expr) : Comparison :=
  ⟨left, right, none⟩

/-- `comparison.evalLeftAndRight`: evaluate the left child, then the right
child; any child error aborts. -/
def evalLeftAndRight (c : Comparison) (row : Row) :
    Except RunErr (Option GoVal × Option GoVal) := do
  let l ← c.left.eval row
  let r ← c.right.eval row
  pure (l, r)

/-- `comparison.castLeftAndRight`, stateless form: given the two static
types and the two raw values, produce the converted values together with
the common type that the Go code assigns to `c.compareType`.  The branch
structure mirrors the source: number tests first, then decimal, float,
signed, the unsigned fallback, and the character fallback for two
non-numbers. -/
def castLeftAndRight (leftType rightType : SQLType) (left right : GoVal) :
    Except RunErr (GoVal × GoVal × SQLType) :=
  if IsNumber leftType || IsNumber rightType then
    if IsDecimal leftType || IsDecimal rightType then do
      let l ← convertValue left .toDecimal
      let r ← convertValue right .toDecimal
      pure (l, r, if IsDecimal leftType then leftType else rightType)
    else if IsFloat leftType || IsFloat rightType then do
      let l ← convertValue left .toDouble
      let r ← convertValue right .toDouble
      pure (l, r, .float64)
    else if IsSigned leftType || IsSigned rightType then do
      let l ← convertValue left .toSigned
      let r ← convertValue right .toSigned
      pure (l, r, .int64)
    else do
      let l ← convertValue left .toUnsigned
      let r ← convertValue right .toUnsigned
      pure (l, r, .uint64)
  else do
    let l ← convertValue left .toChar
    let r ← convertValue right .toChar
    pure (l, r, .longText)

/-- `comparison.Compare`: evaluate both children; a nil operand is the
`ErrNilOperand` sentinel; equal static types delegate to that type's
compare; otherwise cast both sides, record the common type in
`compareType`, and compare under it.  The updated node is returned
explicitly (the Go code mutates through the pointer receiver). -/
def compareC (c : Comparison) (row : Row) : Except RunErr Int × Comparison :=
  match evalLeftAndRight c row with
  | .error e => (.error e, c)
  | .ok (some lv, some rv) =>
    if c.left.type = c.right.type then
      (typeCompare c.left.type lv rv, c)
    else
      match castLeftAndRight c.left.type c.right.type lv rv with
      | .error e => (.error e, c)
      | .ok (l2, r2, t) => (typeCompare t l2 r2, { c with compareType := some t })
  | .ok (_, _) => (.error .nilOperand, c)

/-- `comparison.Type`: the Boolean SQL type, for every comparison node. -/
def comparisonType (_ : Comparison) : SQLType := .boolean

/-- `Equals.Eval`: compare, translate `ErrNilOperand` to NULL, otherwise the
result is `compare == 0`. -/
def equalsEval (c : Comparison) (row : Row) :
    Except RunErr (Option GoVal) × Comparison :=
  match compareC c row with
  | (.error e, c2) =>
    if e = .nilOperand then (.ok none, c2) else (.error e, c2)
  | (.ok r, c2) => (.ok (some (.boolean (r == 0))), c2)

/-- `GreaterThan.Eval`: `compare == 1` after NULL translation. -/
def greaterThanEval (c : Comparison) (row : Row) :
    Except RunErr (Option GoVal) × Comparison :=
  match compareC c row with
  | (.error e, c2) =>
    if e = .nilOperand then (.ok none, c2) else (.error e, c2)
  | (.ok r, c2) => (.ok (some (.boolean (r == 1))), c2)

/-- `LessThan.Eval`: `compare == -1` after NULL translation. -/
def lessThanEval (c : Comparison) (row : Row) :
    Except RunErr (Option GoVal) × Comparison :=
  match compareC c row with
  | (.error e, c2) =>
    if e = .nilOperand then (.ok none, c2) else (.error e, c2)
  | (.ok r, c2) => (.ok (some (.boolean (r == -1))), c2)

/-- `GreaterThanOrEqual.Eval`: `compare > -1` after NULL translation. -/
def greaterThanOrEqualEval (c : Comparison) (row : Row) :
    Except RunErr (Option GoVal) × Comparison :=
  match compareC c row with
  | (.error e, c2) =>
    if e = .nilOperand then (.ok none, c2) else (.error e, c2)
  | (.ok r, c2) => (.ok (some (.boolean (decide (r > -1)))), c2)

/-- `LessThanOrEqual.Eval`: `compare < 1` after NULL translation. -/
def lessThanOrEqualEval (c : Comparison) (row : Row) :
    Except RunErr (Option GoVal) × Comparison :=
  match compareC c row with
  | (.error e, c2) =>
    if e = .nilOperand then (.ok none, c2) else (.error e, c2)
  | (.ok r, c2) => (.ok (some (.boolean (decide (r < 1)))), c2)

/-- The five ordering comparison operators (REGEXP's node is separate). -/
inductive CmpOp where
  | eq
  | gt
  | lt
  | gte
  | lte
  deriving DecidableEq, Repr

/-- Dispatch an operator to its `Eval` implementation. -/
def cmpEval : CmpOp → Comparison → Row → Except RunErr (Option GoVal) × Comparison
  | .eq => equalsEval
  | .gt => greaterThanEval
  | .lt => lessThanEval
  | .gte => greaterThanOrEqualEval
  | .lte => lessThanOrEqualEval

/-! ## The regex engine and the matcher pool -/

/-- A single-character pattern atom: a literal character or `.`. -/
inductive RBase where
  | lit (c : Char)
  | dot
  deriving DecidableEq, Repr

/-- A pattern token: one atom, or a Kleene-starred atom. -/
inductive RTok where
  | one (b : RBase)
  | star (b : RBase)
  deriving DecidableEq, Repr

/-- Whether an atom matches a character. -/
def baseMatch : RBase → Char → Bool
  | .dot, _ => true
  | .lit c, d => c = d

/-- Modelled from the spec: a compiled matcher of the internal regex engine
(`internal/regex`, outside the excerpt): start/end anchors and a token
list, supporting the constructs of the spec's example patterns
(literals, `.`, `*`, `^`, `$`). -/
structure Matcher where
  anchorStart : Bool
  anchorEnd : Bool
  toks : List RTok
  deriving DecidableEq, Repr

/-- Tokenize the body of a pattern; a `*` with no preceding atom is a
compile error, giving the engine a genuinely failing pattern class. -/
def tokenize (fuel : Nat) (cs : List Char) : Option (List RTok) :=
  match fuel with
  | 0 => none
  | fuel + 1 =>
    match cs with
    | [] => some []
    | '*' :: _ => none
    | c :: rest =>
      let b : RBase := if c = '.' then .dot else .lit c
      match rest with
      | '*' :: rest2 => (tokenize fuel rest2).map (RTok.star b :: ·)
      | _ => (tokenize fuel rest).map (RTok.one b :: ·)

/-- Modelled from the spec: `regex.New` — compile a pattern into a matcher
or fail (§4.4); `^` at the front and `$` at the back are anchors. -/
def regexCompile (pattern : String) : Option Matcher :=
  let cs := pattern.data
  let (anchorStart, cs) := match cs with
    | '^' :: rest => (true, rest)
    | _ => (false, cs)
  let (anchorEnd, cs) :=
    match cs.getLast? with
    | some '$' => (true, cs.dropLast)
    | _ => (false, cs)
  (tokenize (cs.length + 1) cs).map fun ts => ⟨anchorStart, anchorEnd, ts⟩

/-- Match a token list against a string suffix at the current position;
fuel-structured so that concrete matches reduce by `decide`. -/
def matchHere (fuel : Nat) (ts : List RTok) (anchorEnd : Bool) (s : List Char) : Bool :=
  match fuel with
  | 0 => false
  | fuel + 1 =>
    match ts, s with
    | [], s => !anchorEnd || s.isEmpty
    | .one _ :: _, [] => false
    | .one b :: rest, c :: s2 => baseMatch b c && matchHere fuel rest anchorEnd s2
    | .star _ :: rest, [] => matchHere fuel rest anchorEnd []
    | .star b :: rest, c :: s2 =>
      matchHere fuel rest anchorEnd (c :: s2) ||
        (baseMatch b c && matchHere fuel ts anchorEnd s2)

/-- Try to match at every start position when the pattern is unanchored. -/
def matchAnywhere (fuel : Nat) (ts : List RTok) (anchorEnd : Bool) (s : List Char) : Bool :=
  match fuel with
  | 0 => false
  | fuel + 1 =>
    matchHere (ts.length + s.length + 1) ts anchorEnd s ||
      match s with
      | [] => false
      | _ :: s2 => matchAnywhere fuel ts anchorEnd s2

/-- Modelled from the spec: `Matcher.Match` of the internal regex engine. -/
def Matcher.match (m : Matcher) (s : String) : Bool :=
  if m.anchorStart then
    matchHere (m.toks.length + s.data.length + 1) m.toks m.anchorEnd s.data
  else
    matchAnywhere (s.data.length + 1) m.toks m.anchorEnd s.data

/-- An object sitting in the `sync.Pool` of a `Regexp` node.  `Get` can hand
back either a `matcherErrTuple` built by the pool's `New` factory, or a bare
`Matcher` that an earlier evaluation `Put` back. -/
inductive PoolObj where
  | tuple (m : Option Matcher) (errMsg : Option String)
  | bare (m : Matcher)
  deriving DecidableEq, Repr

/-- The `sync.Pool` of a cached `Regexp` node: the pattern captured by the
`New` closure, plus the objects currently stored.  `Get` pops a stored
object if one is present and otherwise invokes `New`; this models the
single-goroutine behaviour of `sync.Pool` where a `Put` object is handed
back by the next `Get`. -/
structure Pool where
  pattern : String
  store : List PoolObj
  deriving DecidableEq, Repr

/-- The pool's `New` factory: compile the captured pattern into a
`matcherErrTuple` (`regex.New` result and error packed together). -/
def Pool.factoryNew (p : Pool) : PoolObj :=
  match regexCompile p.pattern with
  | some m => .tuple (some m) none
  | none => .tuple none (some ("Invalid regular expression: " ++ p.pattern))

/-- `sync.Pool.Get`. -/
def Pool.get (p : Pool) : PoolObj × Pool :=
  match p.store with
  | [] => (p.factoryNew, p)
  | o :: rest => (o, { p with store := rest })

/-- `sync.Pool.Put`: the Go code puts back the bare `Matcher`, not a
`matcherErrTuple`. -/
def Pool.put (p : Pool) (m : Matcher) : Pool :=
  { p with store := .bare m :: p.store }

/-- The `Regexp` expression node: the embedded comparison, the lazily
created pool, and the `cached` flag decided at construction. -/
structure RegexpNode where
  cmp : Comparison
  pool : Option Pool
  cached : Bool
  deriving DecidableEq, Repr

/-- `NewRegexp`: `cached` is true iff the right operand contains no
`GetField` (`sql.Inspect` walk); the pool starts nil. -/
def newRegexp (left right : Expr) : RegexpNode :=
  ⟨newComparison left right, none, !right.hasGetField⟩

/-- Convert an evaluated operand to a Go string via `sql.LongText.Convert`;
the value reaches the regex path already non-NULL. -/
def longTextConvert (v : GoVal) : Except RunErr String :=
  match convertValue v .toChar with
  | .ok (.str s) => .ok s
  | .ok _ => .error .convErr
  | .error e => .error e

/-- `Regexp.compareRegexp`, state-passing form.  The third component counts
how many times the regex engine's compiler ran during this call.  Faithful
points: a NULL operand returns NULL; the right operand is only evaluated
when the node is uncached or the pool does not exist yet; the cached path
`Get`s from the pool and type-asserts `matcherErrTuple`, so a bare
`Matcher` stored by an earlier `Put` is a runtime panic; after a match the
bare matcher is `Put` back. -/
def compareRegexp (re : RegexpNode) (row : Row) :
    Except RunErr (Option GoVal) × RegexpNode × Nat :=
  match re.cmp.left.eval row with
  | .error e => (.error e, re, 0)
  | .ok none => (.ok none, re, 0)
  | .ok (some lv) =>
    match longTextConvert lv with
    | .error e => (.error e, re, 0)
    | .ok leftStr =>
      -- eval right and convert to text, only when needed
      let rightRes : Except RunErr (Option String) :=
        if !re.cached || re.pool.isNone then
          match re.cmp.right.eval row with
          | .error e => .error e
          | .ok none => .ok none
          | .ok (some rv) =>
            match longTextConvert rv with
            | .error e => .error e
            | .ok s => .ok (some s)
        else .ok (some "")
      match rightRes with
      | .error e => (.error e, re, 0)
      | .ok none => (.ok none, re, 0)
      | .ok (some rightStr) =>
        if !re.cached then
          -- non-cached: compile a fresh matcher every time, dispose after
          match regexCompile rightStr with
          | none =>
            (.error (.invalidRegexp ("Invalid regular expression: " ++ rightStr)), re, 1)
          | some matcher =>
            (.ok (some (.boolean (matcher.match leftStr))), re, 1)
        else
          -- cached: create the pool on first use, then Get / match / Put
          let pool0 : Pool :=
            match re.pool with
            | none => ⟨rightStr, []⟩
            | some p => p
          let (obj, pool1) := pool0.get
          let compiles := if pool0.store.isEmpty then 1 else 0
          match obj with
          | .bare _ =>
            -- obj.(matcherErrTuple) fails: Go runtime panic
            (.error .panicAssert, { re with pool := some pool1 }, compiles)
          | .tuple none errMsg =>
            (.error (.invalidRegexp (errMsg.getD "")), { re with pool := some pool1 },
              compiles)
          | .tuple (some matcher) _ =>
            let ok := matcher.match leftStr
            let pool2 := pool1.put matcher
            (.ok (some (.boolean ok)), { re with pool := some pool2 }, compiles)

/-- `Regexp.Eval`: the regex path exactly when both static types are
textual, otherwise the generic kernel with `ErrNilOperand` translated to
NULL and the result compared against 0. -/
def regexpEval (re : RegexpNode) (row : Row) :
    Except RunErr (Option GoVal) × RegexpNode × Nat :=
  if IsText re.cmp.left.type && IsText re.cmp.right.type then
    compareRegexp re row
  else
    match compareC re.cmp row with
    | (.error e, c2) =>
      if e = .nilOperand then (.ok none, { re with cmp := c2 }, 0)
      else (.error e, { re with cmp := c2 }, 0)
    | (.ok r, c2) => (.ok (some (.boolean (r == 0))), { re with cmp := c2 }, 0)

/-- Evaluate a `Regexp` node over successive rows, threading the node state;
returns the per-row results and the total number of pattern compilations. -/
def regexpEvalRows (re : RegexpNode) (rows : List Row) :
    List (Except RunErr (Option GoVal)) × RegexpNode × Nat :=
  match rows with
  | [] => ([], re, 0)
  | row :: rest =>
    let (res, re2, n) := regexpEval re row
    let (ress, re3, m) := regexpEvalRows re2 rest
    (res :: ress, re3, n + m)

/-! ## The analyzer driver -/

/-- Analyzer errors.  `maxAnalysisIters` embeds `ErrMaxAnalysisIters`
(carrying the iteration bound); `other` stands for every other error kind a
rule can produce. -/
inductive AErr where
  | maxAnalysisIters (bound : Nat)
  | other (msg : String)
  deriving DecidableEq, Repr

/-- `ErrMaxAnalysisIters.Is`. -/
def AErr.isMaxAnalysisIters : AErr → Bool
  | .maxAnalysisIters _ => true
  | .other _ => false

/-- A plan node as the driver observes it: its `String()` rendering, used
for the span tag, and its `Resolved()` status.  The driver never looks
inside the tree; structural equality is the derived decidable equality
(§4.5 "Structural equality is deep value equality"). -/
structure Plan where
  str : String
  resolved : Bool
  deriving DecidableEq, Repr

/-- Modelled from the spec: the `Scope` stack of parent query schemas (§3);
its content is opaque to the driver. -/
structure Scope where
  schemas : List String
  deriving DecidableEq, Repr

/-- A rule: a name and a rewrite function that may fail (§3 "Rule").  The
function stands for `fn(ctx, analyzer, plan, scope)` with the context
elided and the analyzer not threaded (a rule cannot rewire the driver). -/
structure Rule where
  name : String
  fn : Plan → Scope → Except AErr Plan

/-- A batch: a description, an iteration bound, and an ordered rule list. -/
structure Batch where
  desc : String
  iterations : Nat
  rules : List Rule

/-- Modelled from the spec: one pass of a batch's rules in order (§4.5
"Batch evaluation"); on a rule error, the plan from before that rule is
returned alongside the error. -/
def rulesPass (rules : List Rule) (plan : Plan) (scope : Scope) :
    Plan × Option AErr :=
  match rules with
  | [] => (plan, none)
  | r :: rest =>
    match r.fn plan scope with
    | .error e => (plan, some e)
    | .ok p2 => rulesPass rest p2 scope

/-- Modelled from the spec: the batch fixed-point loop (§4.5).  Repeat up
to the bound: run one pass; a rule error returns immediately; a pass that
leaves the plan structurally equal stops (fixed point); exhausting the
bound without convergence returns `MaxAnalysisIters`. -/
def batchLoop (b : Batch) (scope : Scope) : Nat → Plan → Plan × Option AErr
  | 0, plan => (plan, some (.maxAnalysisIters b.iterations))
  | fuel + 1, plan =>
    let (p2, e) := rulesPass b.rules plan scope
    match e with
    | some err => (p2, some err)
    | none =>
      if p2 = plan then (p2, none)
      else batchLoop b scope fuel p2

/-- Modelled from the spec: `Batch.Eval` (§4.5); batch.go is outside the
excerpt. -/
def Batch.eval (b : Batch) (plan : Plan) (scope : Scope) : Plan × Option AErr :=
  batchLoop b scope b.iterations plan

/-- The `Analyzer` struct: flags, the debug context stack, parallelism and
the batch pipeline (the catalog does not participate in the driver). -/
structure Analyzer where
  debug : Bool
  verbose : Bool
  contextStack : List String
  parallelism : Nat
  batches : List Batch

/-- `Analyzer.PushDebugContext`. -/
def Analyzer.pushDebugContext (a : Analyzer) (msg : String) : Analyzer :=
  { a with contextStack := a.contextStack ++ [msg] }

/-- `Analyzer.PopDebugContext`: drops the top entry when one exists. -/
def Analyzer.popDebugContext (a : Analyzer) : Analyzer :=
  if a.contextStack.length > 0 then
    { a with contextStack := a.contextStack.dropLast }
  else a

/-- A tracing span: its tags in the order they were set, and whether
`Finish` has run. -/
structure Span where
  tags : List (String × String)
  finished : Bool
  deriving DecidableEq, Repr

/-- `Span.SetTag`. -/
def Span.setTag (sp : Span) (k v : String) : Span :=
  { sp with tags := sp.tags ++ [(k, v)] }

/-- What `Analyzer.Analyze` returns, with the driver's side effects made
explicit: the plan, the error (nil or not), the analyzer state (its debug
context stack may have changed), and the final span state. -/
structure AnalyzeResult where
  plan : Plan
  err : Option AErr
  analyzer : Analyzer
  span : Span

/-- The batch loop of `Analyze` (analyzer.go lines 271-283): push the batch
description, evaluate the batch, pop; a `MaxAnalysisIters` error is kept in
`err` but control continues with the next batch; any other error returns
right away — before the deferred span bookkeeping below has been set up,
so the span is returned untouched on that path. -/
def analyzeLoop (scope : Scope) :
    List Batch → Analyzer → Plan → Option AErr → Span → AnalyzeResult
  | [], a, n, err, span =>
    -- the loop is done; the deferred block tags IsResolved and finishes
    let span := (span.setTag "IsResolved" (toString n.resolved))
    let span := { span with finished := true }
    ⟨n, err, a, span⟩
  | b :: rest, a, n, _, span =>
    let a := a.pushDebugContext b.desc
    let (n2, err2) := b.eval n scope
    match err2 with
    | some e =>
      let a := a.popDebugContext
      if e.isMaxAnalysisIters then
        analyzeLoop scope rest a n2 (some e) span
      else
        ⟨n2, some e, a, span⟩
    | none =>
      let a := a.popDebugContext
      analyzeLoop scope rest a n2 none span

/-- `Analyzer.Analyze`: open the span tagged with the inbound plan's string
form, run the batches, and (only once the loop has completed) tag
`IsResolved` with the final plan's resolved status and finish the span. -/
def Analyzer.analyze (a : Analyzer) (n : Plan) (scope : Scope) : AnalyzeResult :=
  let span : Span := ⟨[("plan", n.str)], false⟩
  analyzeLoop scope a.batches a n none span

/-! ## Spec-side definitions and concrete fixtures -/

/-- Following the spec's words (§4.3, step 4): the priority ladder.  For a
pair of operand static types it gives the conversion target both sides are
coerced to and the common comparison type, first matching rule winning.
This is the spec's table, to be compared against `castLeftAndRight`. -/
def ladderTarget (leftType rightType : SQLType) : ConvTarget × SQLType :=
  if (IsNumber leftType || IsNumber rightType) &&
      (IsDecimal leftType || IsDecimal rightType) then
    (.toDecimal, if IsDecimal leftType then leftType else rightType)
  else if (IsNumber leftType || IsNumber rightType) &&
      (IsFloat leftType || IsFloat rightType) then
    (.toDouble, .float64)
  else if (IsNumber leftType || IsNumber rightType) &&
      (IsSigned leftType || IsSigned rightType) then
    (.toSigned, .int64)
  else if IsNumber leftType || IsNumber rightType then
    (.toUnsigned, .uint64)
  else
    (.toChar, .longText)

/-- A rule that always fails with an error that is not `MaxAnalysisIters`. -/
def boomRule : Rule := ⟨"boom", fun _ _ => .error (.other "boom")⟩

/-- A one-iteration batch holding only `boomRule`. -/
def boomBatch : Batch := ⟨"validation", 1, [boomRule]⟩

/-- An analyzer whose single batch always hard-fails. -/
def boomAnalyzer : Analyzer := ⟨false, false, [], 0, [boomBatch]⟩

/-- A rule that changes the plan on every application, so its batch never
reaches a fixed point. -/
def growRule : Rule := ⟨"grow", fun p _ => .ok ⟨p.str ++ "x", p.resolved⟩⟩

/-- A batch around `growRule` that exhausts its iteration bound. -/
def growBatch : Batch := ⟨"default-rules", 1, [growRule]⟩

/-- An analyzer whose single (hence last) batch reports `MaxAnalysisIters`. -/
def growAnalyzer : Analyzer := ⟨false, false, [], 0, [growBatch]⟩

/-- A concrete inbound plan. -/
def plan0 : Plan := ⟨"plan", false⟩

/-- An empty scope. -/
def scope0 : Scope := ⟨[]⟩

/-- The `LessThan(Literal(1, Int64), Literal(2.0, Float64))` node of the
spec's concrete scenario 3. -/
def ltOneTwo : Comparison :=
  ⟨.literal (some (.i64 1)) .int64, .literal (some (.f64 2)) .float64, none⟩

/-- The `GreaterThanOrEqual(Literal("10", Text), Literal(9, Int64))` node of
the spec's concrete scenario 4. -/
def gteTenNine : Comparison :=
  ⟨.literal (some (.str "10")) .text, .literal (some (.i64 9)) .int64, none⟩

/-- The `Regexp(Literal("hello", Text), Literal("^h.*o$", Text))` node of
the spec's concrete scenario 5. -/
def regexpHello : RegexpNode :=
  newRegexp (.literal (some (.str "hello")) .text)
    (.literal (some (.str "^h.*o$")) .text)

/-! ## Helper lemmas -/

/-- When both children evaluate without error and either value is the SQL
NULL, `comparison.Compare` fails with exactly the `ErrNilOperand` sentinel
and leaves the node untouched. -/
theorem compareC_nilOperand (c : Comparison) (row : Row) (lv rv : Option GoVal)
    (hl : c.left.eval row = .ok lv) (hr : c.right.eval row = .ok rv)
    (hnull : lv = none ∨ rv = none) :
    compareC c row = (.error .nilOperand, c) := by
  have hLR : evalLeftAndRight c row = .ok (lv, rv) := by
    unfold evalLeftAndRight
    rw [hl, hr]
    rfl
  unfold compareC
  rw [hLR]
  rcases hnull with h | h
  · subst h
    cases rv <;> rfl
  · subst h
    cases lv <;> rfl

/-- Every operator `Eval` threads the node state of `comparison.Compare`
through unchanged. -/
theorem cmpEval_snd (op : CmpOp) (c : Comparison) (row : Row) :
    (cmpEval op c row).2 = (compareC c row).2 := by
  rcases h : compareC c row with ⟨res, c2⟩
  cases op <;> cases res <;>
    simp [cmpEval, equalsEval, greaterThanEval, lessThanEval,
      greaterThanOrEqualEval, lessThanOrEqualEval, h] <;>
    split <;> rfl

/-- `comparison.Compare` can only change the `compareType` field: the
children of the returned node are those of the input node. -/
theorem compareC_preserves_children (c : Comparison) (row : Row) :
    ((compareC c row).2).left = c.left ∧ ((compareC c row).2).right = c.right := by
  unfold compareC
  split
  · exact ⟨rfl, rfl⟩
  · split
    · exact ⟨rfl, rfl⟩
    · split
      · exact ⟨rfl, rfl⟩
      · exact ⟨rfl, rfl⟩
  · exact ⟨rfl, rfl⟩

/-! ## Claims about the comparison operators -/

/-- Claim C1: for every comparison operator (and REGEXP on its generic
path), if both children evaluate without error and either operand is NULL,
the operator's `Eval` returns the SQL NULL and no error: `ErrNilOperand`
never escapes to the caller. -/
theorem cmp_null_yields_null (c : Comparison) (row : Row) (lv rv : Option GoVal)
    (hl : c.left.eval row = .ok lv) (hr : c.right.eval row = .ok rv)
    (hnull : lv = none ∨ rv = none) :
    (∀ op : CmpOp, (cmpEval op c row).1 = .ok none) ∧
    (∀ re : RegexpNode, re.cmp = c →
      (IsText c.left.type && IsText c.right.type) = false →
      (regexpEval re row).1 = .ok none) := by
  have hc := compareC_nilOperand c row lv rv hl hr hnull
  constructor
  · intro op
    cases op <;>
      simp [cmpEval, equalsEval, greaterThanEval, lessThanEval,
        greaterThanOrEqualEval, lessThanOrEqualEval, hc]
  · intro re hre htext
    subst hre
    simp [regexpEval, htext, hc]

/-- Witness for C1 at `Equals(Literal(NULL, Int64), Literal(1, Int64))`
over the empty row (the spec's concrete scenario 2). -/
theorem cmp_null_yields_null_witness :
    (Expr.eval (.literal none .int64) [] = .ok none) ∧
    (Expr.eval (.literal (some (.i64 1)) .int64) [] = .ok (some (.i64 1))) ∧
    (cmpEval .eq ⟨.literal none .int64, .literal (some (.i64 1)) .int64, none⟩ []).1 =
      .ok none :=
  ⟨rfl, rfl,
    (cmp_null_yields_null ⟨.literal none .int64, .literal (some (.i64 1)) .int64, none⟩
      [] none (some (.i64 1)) rfl rfl (Or.inl rfl)).1 .eq⟩

/-- Claim C4: `castLeftAndRight` follows the spec's priority ladder — both
sides are converted to the target the ladder selects and the common type is
the ladder's common type — and on
`LessThan(Literal(1, Int64), Literal(2.0, Float64))` the evaluation yields
`true` with common comparison type `Float64`. -/
theorem castLeftAndRight_follows_ladder :
    (∀ (tl tr : SQLType) (l r : GoVal),
      castLeftAndRight tl tr l r = (do
        let l2 ← convertValue l (ladderTarget tl tr).1
        let r2 ← convertValue r (ladderTarget tl tr).1
        pure (l2, r2, (ladderTarget tl tr).2))) ∧
    (lessThanEval ltOneTwo []).1 = .ok (some (.boolean true)) ∧
    ((lessThanEval ltOneTwo []).2).compareType = some .float64 := by
  refine ⟨?_, rfl, rfl⟩
  intro tl tr l r
  cases tl <;> cases tr <;> rfl

/-- Claim C5: whenever `comparison.Compare` returns an integer `v` in
`{-1, 0, +1}` without error, `=` yields true iff `v = 0`, `>` iff `v = 1`,
`<` iff `v = -1`, `>=` iff `v ≠ -1`, `<=` iff `v ≠ 1`; and
`GreaterThanOrEqual(Literal("10", Text), Literal(9, Int64))` compares as
numbers and evaluates to `true`. -/
theorem cmp_result_mapping (c : Comparison) (row : Row) (v : Int) (c2 : Comparison)
    (h : compareC c row = (.ok v, c2)) (hv : v = -1 ∨ v = 0 ∨ v = 1) :
    (cmpEval .eq c row).1 = .ok (some (.boolean (v == 0))) ∧
    (cmpEval .gt c row).1 = .ok (some (.boolean (v == 1))) ∧
    (cmpEval .lt c row).1 = .ok (some (.boolean (v == -1))) ∧
    (cmpEval .gte c row).1 = .ok (some (.boolean (!(v == -1)))) ∧
    (cmpEval .lte c row).1 = .ok (some (.boolean (!(v == 1)))) ∧
    (cmpEval .gte gteTenNine []).1 = .ok (some (.boolean true)) := by
  have hgte : (decide (v > -1)) = !(v == -1) := by
    rcases hv with h1 | h1 | h1 <;> subst h1 <;> decide
  have hlte : (decide (v < 1)) = !(v == 1) := by
    rcases hv with h1 | h1 | h1 <;> subst h1 <;> decide
  refine ⟨?_, ?_, ?_, ?_, ?_, by rfl⟩ <;>
    simp [cmpEval, equalsEval, greaterThanEval, lessThanEval,
      greaterThanOrEqualEval, lessThanOrEqualEval, h, hgte, hlte]

/-- Witness for C5 at `Equals(Literal(1, Int64), Literal(1, Int64))` over
the empty row (the spec's concrete scenario 1), where `Compare` returns 0. -/
theorem cmp_result_mapping_witness :
    (compareC ⟨.literal (some (.i64 1)) .int64, .literal (some (.i64 1)) .int64, none⟩ [] =
      (.ok 0, ⟨.literal (some (.i64 1)) .int64, .literal (some (.i64 1)) .int64, none⟩)) ∧
    ((0 : Int) = -1 ∨ (0 : Int) = 0 ∨ (0 : Int) = 1) ∧
    (cmpEval .eq ⟨.literal (some (.i64 1)) .int64, .literal (some (.i64 1)) .int64, none⟩ []).1 =
      .ok (some (.boolean ((0 : Int) == 0))) :=
  ⟨rfl, by decide,
    (cmp_result_mapping ⟨.literal (some (.i64 1)) .int64, .literal (some (.i64 1)) .int64, none⟩
      [] 0 ⟨.literal (some (.i64 1)) .int64, .literal (some (.i64 1)) .int64, none⟩
      rfl (by decide)).1⟩

/-- Claim C10: `comparison.Type` returns the Boolean SQL type for every
comparison node — all five ordering operators and REGEXP, whatever the
operands — and it is unchanged by evaluation. -/
theorem comparison_type_is_boolean :
    (∀ c : Comparison, comparisonType c = .boolean) ∧
    (∀ (op : CmpOp) (c : Comparison) (row : Row),
      comparisonType ((cmpEval op c row).2) = .boolean) ∧
    (∀ re : RegexpNode, comparisonType re.cmp = .boolean ∧
      ∀ row : Row, comparisonType (((regexpEval re row).2.1).cmp) = .boolean) :=
  ⟨fun _ => rfl, fun _ _ _ => rfl, fun _ => ⟨rfl, fun _ => rfl⟩⟩

/-- `Regexp.compareRegexp` can only change the `pool` field of the node:
the embedded comparison and the `cached` flag come through unchanged. -/
theorem compareRegexp_preserves (re : RegexpNode) (row : Row) :
    ((compareRegexp re row).2.1).cmp = re.cmp ∧
    ((compareRegexp re row).2.1).cached = re.cached := by
  unfold compareRegexp
  repeat'
    first
      | exact ⟨rfl, rfl⟩
      | split
      | dsimp only

/-- Claim C7 counterexample: evaluating
`LessThan(Literal(1, Int64), Literal(2.0, Float64))` on the empty row does
not leave the node's fields unchanged — the internal `compareType` field
goes from nil to `Float64` through the pointer receiver. -/
theorem cmp_eval_mutates_compare_type :
    ((lessThanEval ltOneTwo []).2 ≠ ltOneTwo) ∧
    ltOneTwo.compareType = none ∧
    ((lessThanEval ltOneTwo []).2).compareType = some .float64 := by
  refine ⟨?_, rfl, by rfl⟩
  intro h
  have h2 := congrArg Comparison.compareType h
  rw [show ((lessThanEval ltOneTwo []).2).compareType = some .float64 from by rfl] at h2
  exact Option.noConfusion h2

/-- Claim C7 (amended): evaluation of any comparison operator leaves the
node's children unchanged — only the internal cache fields (`compareType`,
and the pool of a `Regexp` node) may be written. -/
theorem cmp_eval_preserves_children :
    (∀ (op : CmpOp) (c : Comparison) (row : Row),
      ((cmpEval op c row).2).left = c.left ∧ ((cmpEval op c row).2).right = c.right) ∧
    (∀ (re : RegexpNode) (row : Row),
      ((regexpEval re row).2.1).cmp.left = re.cmp.left ∧
      ((regexpEval re row).2.1).cmp.right = re.cmp.right ∧
      ((regexpEval re row).2.1).cached = re.cached) := by
  constructor
  · intro op c row
    rw [cmpEval_snd]
    exact compareC_preserves_children c row
  · intro re row
    unfold regexpEval
    split
    · rcases compareRegexp_preserves re row with ⟨h1, h2⟩
      exact ⟨by rw [h1], by rw [h1], h2⟩
    · rcases h : compareC re.cmp row with ⟨res, c2⟩
      have hch := compareC_preserves_children re.cmp row
      rw [h] at hch
      replace hch : c2.left = re.cmp.left ∧ c2.right = re.cmp.right := hch
      cases res with
      | error e =>
        by_cases he : e = RunErr.nilOperand <;> simp [h, he, hch.1, hch.2]
      | ok v => simp [h, hch.1, hch.2]

/-- Claim C8: `Regexp.Eval` takes the regex-matching path exactly when both
operands' static types are textual; when either side is non-text it uses
the generic kernel and behaves like `=` (true iff the compare result is 0,
`NilOperand` translated to NULL). -/
theorem regexp_path_selection (re : RegexpNode) (row : Row) :
    ((IsText re.cmp.left.type && IsText re.cmp.right.type) = true →
      regexpEval re row = compareRegexp re row) ∧
    ((IsText re.cmp.left.type && IsText re.cmp.right.type) = false →
      (regexpEval re row).1 = (cmpEval .eq re.cmp row).1) := by
  constructor
  · intro h
    simp [regexpEval, h]
  · intro h
    rcases hc : compareC re.cmp row with ⟨res, c2⟩
    cases res with
    | error e =>
      by_cases he : e = RunErr.nilOperand <;>
        simp [regexpEval, h, cmpEval, equalsEval, hc, he]
    | ok v => simp [regexpEval, h, cmpEval, equalsEval, hc]

/-- Witness for C8: on `Regexp(Literal("hello", Text), Literal("^h.*o$",
Text))` both sides are textual and the regex path is taken; on a REGEXP
with an Int64 left operand the generic path is taken and behaves like
`=`. -/
theorem regexp_path_selection_witness :
    ((IsText regexpHello.cmp.left.type && IsText regexpHello.cmp.right.type) = true ∧
      regexpEval regexpHello [] = compareRegexp regexpHello []) ∧
    ((IsText (Expr.type (.literal (some (.i64 1)) .int64)) &&
        IsText (Expr.type (.literal (some (.str "^h.*o$")) .text))) = false ∧
      (regexpEval (newRegexp (.literal (some (.i64 1)) .int64)
        (.literal (some (.str "^h.*o$")) .text)) []).1 =
      (cmpEval .eq (newRegexp (.literal (some (.i64 1)) .int64)
        (.literal (some (.str "^h.*o$")) .text)).cmp []).1) :=
  ⟨⟨rfl, (regexp_path_selection regexpHello []).1 rfl⟩,
    ⟨rfl, (regexp_path_selection (newRegexp (.literal (some (.i64 1)) .int64)
      (.literal (some (.str "^h.*o$")) .text)) []).2 rfl⟩⟩

/-- Claim C3: on the cached REGEXP node
`Regexp(Literal("hello", Text), Literal("^h.*o$", Text))`, `cached` is
true, and the first evaluation matches — but the second evaluation panics
on the pool's failed type assertion (`Put` stored a bare matcher where
`Get` expects a `matcherErrTuple`), and across three rows the pattern is
compiled twice, not at most once.  This evaluates the code at the claim's
failing input. -/
theorem regexp_cached_second_eval_panics :
    regexpHello.cached = true ∧
    (regexpEvalRows regexpHello [[], [], []]).1 =
      [.ok (some (.boolean true)), .error .panicAssert, .ok (some (.boolean true))] ∧
    (regexpEvalRows regexpHello [[], [], []]).2.2 = 2 :=
  ⟨rfl, by rfl, by rfl⟩

/-! ## Claims about the analyzer driver -/

/-- Where a `MaxAnalysisIters` error returned by the driver loop can come
from: either the loop had no batches and the error was carried in, or some
batch's `Eval` produced it as the last batch of the list. -/
theorem analyzeLoop_last_err (s : Scope) :
    ∀ (bs : List Batch) (a : Analyzer) (n : Plan) (e0 : Option AErr) (sp : Span) (e : AErr),
      (analyzeLoop s bs a n e0 sp).err = some e → e.isMaxAnalysisIters = true →
      (bs = [] ∧ e0 = some e) ∨
      (∃ bl p, bs.getLast? = some bl ∧ (bl.eval p s).2 = some e) := by
  intro bs
  induction bs with
  | nil =>
    intro a n e0 sp e he _
    exact Or.inl ⟨rfl, he⟩
  | cons b rest ih =>
    intro a n e0 sp e he hmax
    rcases hbe : b.eval n s with ⟨n2, err2⟩
    simp only [analyzeLoop, hbe] at he
    cases err2 with
    | none =>
      rcases ih _ n2 none sp e he hmax with ⟨hnil, h0⟩ | ⟨bl, p, hbl, hev⟩
      · exact absurd h0 (by simp)
      · refine Or.inr ⟨bl, p, ?_, hev⟩
        cases rest with
        | nil => exact absurd hbl (by simp)
        | cons r rest2 => simpa using hbl
    | some e2 =>
      by_cases hm : e2.isMaxAnalysisIters = true
      · simp only [hm, if_true] at he
        rcases ih _ n2 (some e2) sp e he hmax with ⟨hnil, h0⟩ | ⟨bl, p, hbl, hev⟩
        · subst hnil
          refine Or.inr ⟨b, n, by simp, ?_⟩
          rw [hbe]
          exact h0
        · refine Or.inr ⟨bl, p, ?_, hev⟩
          cases rest with
          | nil => exact absurd hbl (by simp)
          | cons r rest2 => simpa using hbl
      · rw [Bool.not_eq_true] at hm
        simp only [hm, Bool.false_eq_true, if_false] at he
        have he2 : some e2 = some e := he
        obtain rfl := Option.some.inj he2
        rw [hm] at hmax
        exact Bool.noConfusion hmax

/-- Claim C2 counterexample: an analyzer whose single — hence last — batch
exhausts its iteration bound.  `Analyze` returns the `MaxAnalysisIters`
error to its caller instead of suppressing it: the `continue` skips the
batch but the shared `err` variable is still set when the loop ends. -/
theorem analyze_returns_maxIters_from_last_batch :
    (growAnalyzer.analyze plan0 scope0).err = some (.maxAnalysisIters 1) ∧
    (AErr.maxAnalysisIters 1).isMaxAnalysisIters = true :=
  ⟨by rfl, rfl⟩

/-- Claim C2 (amended): a `MaxAnalysisIters` failure of any batch other
than the last is suppressed — if the last batch's `Eval` never reports
`MaxAnalysisIters`, then `Analyze` never returns an error of that kind;
only the last batch can leak it. -/
theorem analyze_suppresses_nonfinal_max_iters (a : Analyzer) (n : Plan) (s : Scope) (e : AErr)
    (hlast : ∀ bl, a.batches.getLast? = some bl →
      ∀ p e2, (bl.eval p s).2 = some e2 → e2.isMaxAnalysisIters = false)
    (herr : (a.analyze n s).err = some e) :
    e.isMaxAnalysisIters = false := by
  by_contra hmax
  rw [Bool.not_eq_false] at hmax
  rcases analyzeLoop_last_err s a.batches a n none _ e herr hmax with ⟨_, h0⟩ | ⟨bl, p, hbl, hev⟩
  · exact Option.noConfusion h0
  · have hfalse := hlast bl hbl p e hev
    rw [hfalse] at hmax
    exact Bool.noConfusion hmax

/-- Witness for the amended C2: on `boomAnalyzer` the single batch fails
with a non-`MaxAnalysisIters` error, the returned error is that error, and
it is indeed not of kind `MaxAnalysisIters`. -/
theorem analyze_suppresses_nonfinal_max_iters_witness :
    (boomAnalyzer.analyze plan0 scope0).err = some (.other "boom") ∧
    (AErr.other "boom").isMaxAnalysisIters = false :=
  ⟨by rfl,
    analyze_suppresses_nonfinal_max_iters boomAnalyzer plan0 scope0 (.other "boom")
      (by
        intro bl hbl p e2 hev
        have hb : boomBatch = bl := by simpa [boomAnalyzer] using hbl
        subst hb
        have hev2 : some (AErr.other "boom") = some e2 := hev
        rw [← Option.some.inj hev2]
        rfl)
      (by rfl)⟩

/-- On every path where the driver loop runs to completion (the returned
error, if any, is of kind `MaxAnalysisIters`), the span is finished and its
tags are the inbound tags extended with `IsResolved` of the final plan. -/
theorem analyzeLoop_completes (s : Scope) :
    ∀ (bs : List Batch) (a : Analyzer) (n : Plan) (e0 : Option AErr) (sp : Span),
      (∀ e, (analyzeLoop s bs a n e0 sp).err = some e → e.isMaxAnalysisIters = true) →
      (analyzeLoop s bs a n e0 sp).span.finished = true ∧
      (analyzeLoop s bs a n e0 sp).span.tags =
        sp.tags ++ [("IsResolved", toString ((analyzeLoop s bs a n e0 sp).plan).resolved)] := by
  intro bs
  induction bs with
  | nil => intro a n e0 sp _; exact ⟨rfl, rfl⟩
  | cons b rest ih =>
    intro a n e0 sp h
    rcases hbe : b.eval n s with ⟨n2, err2⟩
    simp only [analyzeLoop, hbe] at h ⊢
    cases err2 with
    | none => exact ih _ n2 none sp h
    | some e2 =>
      by_cases hm : e2.isMaxAnalysisIters = true
      · simp only [hm, if_true] at h ⊢
        exact ih _ n2 (some e2) sp h
      · rw [Bool.not_eq_true] at hm
        simp only [hm, if_false] at h
        have := h e2 rfl
        rw [hm] at this
        exact absurd this (by simp)

/-- Claim C6 counterexample: when a batch fails with a non-suppressed
error, `Analyze` returns before the deferred span bookkeeping is set up:
the span still carries only the inbound `plan` tag, has no `IsResolved`
tag, and is never finished. -/
theorem analyze_span_unfinished_on_error :
    (boomAnalyzer.analyze plan0 scope0).err = some (.other "boom") ∧
    ((boomAnalyzer.analyze plan0 scope0).span).finished = false ∧
    ((boomAnalyzer.analyze plan0 scope0).span).tags = [("plan", "plan")] :=
  ⟨by rfl, by rfl, by rfl⟩

/-- Claim C6 (amended): `Analyze` opens a span tagged with the inbound
plan's string form, and on every run whose batch errors (if any) are all of
the suppressed `MaxAnalysisIters` kind, it tags the span with `IsResolved`
set to the returned plan's resolved status and finishes it; a
non-suppressed batch error instead returns before the span is tagged or
finished. -/
theorem analyze_span_on_completion (a : Analyzer) (n : Plan) (s : Scope)
    (h : ∀ e, (a.analyze n s).err = some e → e.isMaxAnalysisIters = true) :
    ((a.analyze n s).span).finished = true ∧
    ((a.analyze n s).span).tags.head? = some ("plan", n.str) ∧
    ("IsResolved", toString ((a.analyze n s).plan).resolved) ∈ ((a.analyze n s).span).tags := by
  rcases analyzeLoop_completes s a.batches a n none ⟨[("plan", n.str)], false⟩ h with ⟨hf, ht⟩
  refine ⟨hf, ?_, ?_⟩
  · rw [show ((a.analyze n s).span).tags =
      [("plan", n.str)] ++ [("IsResolved", toString ((a.analyze n s).plan).resolved)] from ht]
    rfl
  · rw [show ((a.analyze n s).span).tags =
      [("plan", n.str)] ++ [("IsResolved", toString ((a.analyze n s).plan).resolved)] from ht]
    simp

/-- Witness for the amended C6: an analyzer with no batches completes, so
its span is finished, headed by the `plan` tag, and carries `IsResolved`. -/
theorem analyze_span_on_completion_witness :
    ((Analyzer.analyze ⟨false, false, [], 0, []⟩ ⟨"p", true⟩ scope0).span).finished = true ∧
    ((Analyzer.analyze ⟨false, false, [], 0, []⟩ ⟨"p", true⟩ scope0).span).tags.head? =
      some ("plan", "p") ∧
    ("IsResolved",
        toString ((Analyzer.analyze ⟨false, false, [], 0, []⟩ ⟨"p", true⟩ scope0).plan).resolved) ∈
      ((Analyzer.analyze ⟨false, false, [], 0, []⟩ ⟨"p", true⟩ scope0).span).tags :=
  analyze_span_on_completion ⟨false, false, [], 0, []⟩ ⟨"p", true⟩ scope0
    (fun _ he => Option.noConfusion he)

/-- Popping right after pushing restores the analyzer's debug context
stack (and every other field). -/
theorem popDebugContext_pushDebugContext (a : Analyzer) (d : String) :
    (a.pushDebugContext d).popDebugContext = a := by
  unfold Analyzer.pushDebugContext Analyzer.popDebugContext
  simp

/-- The driver loop restores the context stack on every path: each pushed
batch description is popped again, both on success and on error. -/
theorem analyzeLoop_stack (s : Scope) :
    ∀ (bs : List Batch) (a : Analyzer) (n : Plan) (e0 : Option AErr) (sp : Span),
      ((analyzeLoop s bs a n e0 sp).analyzer).contextStack = a.contextStack := by
  intro bs
  induction bs with
  | nil => intro a n e0 sp; rfl
  | cons b rest ih =>
    intro a n e0 sp
    rcases hbe : b.eval n s with ⟨n2, err2⟩
    simp only [analyzeLoop, hbe]
    cases err2 with
    | none =>
      rw [ih _ n2 none sp, popDebugContext_pushDebugContext]
    | some e2 =>
      by_cases hm : e2.isMaxAnalysisIters = true
      · simp only [hm, if_true]
        rw [ih _ n2 (some e2) sp, popDebugContext_pushDebugContext]
      · rw [Bool.not_eq_true] at hm
        simp only [hm, Bool.false_eq_true, if_false]
        rw [popDebugContext_pushDebugContext]

/-- Claim C9: after every call to `Analyze` — returning a plan or an error
— the analyzer's debug context stack equals its contents from before the
call: every pushed batch description is popped on both paths. -/
theorem analyze_restores_context_stack (a : Analyzer) (n : Plan) (s : Scope) :
    (((a.analyze n s).analyzer)).contextStack = a.contextStack :=
  analyzeLoop_stack s a.batches a n none ⟨[("plan", n.str)], false⟩

end GoMysql
